import Mathlib

/-!
Verification of the transcription lifecycle of the medical-agent-rag service.

The embedding models, from the sources:
  * the `Transcription` and `TerminologyValidation` rows and the in-memory
    relational store (`app/db/models.py`, `app/services/database_service.py`);
  * the store operations `create_transcription`, `get_transcription`,
    `update_transcription`, `get_patient_transcriptions`,
    `save_terminology_validations` (`DatabaseService` methods);
  * the upload endpoint `upload_audio_transcription` and the background
    pipeline `process_audio_transcription` (`app/api/routes.py`);
  * the summarizer `generate_medical_notes` / `_parse_llm_response`
    (`app/agents/medical_summarizer.py`) and the terminology validator
    `validate_terms` / `_validate_single_term`
    (`app/agents/terminology_validator.py`).

External effects are made explicit: wall-clock readings are `Nat` parameters,
the filesystem is the set of existing paths, UUID generation is a fresh-id
counter, and each external LLM call is an oracle `String → Option String`
(`none` models the call raising an exception).
-/

namespace MedAgent

/-- Lifecycle status enum `TranscriptionStatus` from `app/db/models.py`. -/
inductive TranscriptionStatus where
  | processing
  | completed
  | failed
deriving DecidableEq, Repr

/-- One medication entry of the structured notes payload. -/
structure Medication where
  name : String
  dosage : String
  frequency : String
  duration : String
deriving DecidableEq, Repr

/-- The structured medical-notes payload (the JSON dict held in the
`medical_notes` column). Fields follow the dict literal returned by
`MedicalSummarizer._parse_llm_response`. -/
structure NotesPayload where
  symptoms : List String
  diagnoses : List String
  medications : List Medication
  recommendations : List String
  follow_up_required : Bool
  urgency_level : String
  summary : String
deriving DecidableEq, Repr

/-- A row of the `transcriptions` table (`app/db/models.py`), restricted to the
columns the lifecycle reads or writes. Timestamps are `Nat` clock readings;
UUIDs are `Nat` identifiers. -/
structure Transcription where
  id : Nat
  patient_id : String
  doctor_id : String
  audio_file_path : Option String
  raw_text : Option String
  medical_notes : Option NotesPayload
  status : TranscriptionStatus
  confidence_score : Option ℚ
  processed_at : Option Nat
  created_at : Nat
  updated_at : Nat
deriving DecidableEq, Repr

/-- A row of the `terminology_validations` table. -/
structure TermValidationRow where
  id : Nat
  transcription_id : Nat
  original_term : String
  validated_term : Option String
  is_medical : Bool
  confidence : ℚ
  category : Option String
  suggested_correction : Option String
  created_at : Nat
deriving DecidableEq, Repr

/-- One validation result as produced by `TerminologyValidator.validate_terms`
and consumed by `DatabaseService.save_terminology_validations` (the dict with
keys `term`, `validated_term`, `is_medical`, `confidence`, `category`,
`suggested_correction`). -/
structure ValidationInput where
  term : String
  validated_term : Option String
  is_medical : Bool
  confidence : ℚ
  category : Option String
  suggested_correction : Option String
deriving DecidableEq, Repr

/-- The relational store: the two tables the lifecycle touches, plus a
fresh-id supply standing for `uuid.uuid4()`. -/
structure DB where
  transcriptions : List Transcription
  validations : List TermValidationRow
  nextId : Nat
deriving DecidableEq, Repr

/-- The world a pipeline run can observe and mutate: the store and the set of
paths that currently exist on disk. -/
structure World where
  db : DB
  files : List String
deriving DecidableEq, Repr

/-- The empty initial world: empty tables, no files on disk. -/
def World.empty : World := ⟨⟨[], [], 0⟩, []⟩

/-- Merge rule of `DatabaseService.update_transcription`: a field is
overwritten only when the argument is not `None`. -/
def mergeField {α : Type} (new old : Option α) : Option α :=
  match new with
  | some v => some v
  | none => old

/-- Store operation `DatabaseService.get_transcription`: look the row up by primary key. -/
def get_transcription (db : DB) (id : Nat) : Option Transcription :=
  db.transcriptions.find? (fun t => t.id = id)

/-- Store operation `DatabaseService.create_transcription`: insert a fresh row with status
`processing`, `created_at = now`, and a generated id. -/
def create_transcription (db : DB) (now : Nat) (pid did path : String) :
    Transcription × DB :=
  let t : Transcription :=
    { id := db.nextId
      patient_id := pid
      doctor_id := did
      audio_file_path := some path
      raw_text := none
      medical_notes := none
      status := TranscriptionStatus.processing
      confidence_score := none
      processed_at := none
      created_at := now
      updated_at := now }
  (t, { db with transcriptions := db.transcriptions ++ [t], nextId := db.nextId + 1 })

/-- The row-level effect of `DatabaseService.update_transcription`: merge the
non-null fields, then set `processed_at` and `updated_at` to the current time
(the source sets both unconditionally on every successful update). -/
def applyUpdate (now : Nat) (transcript_text : Option String)
    (medical_notes : Option NotesPayload) (status : Option TranscriptionStatus)
    (confidence_score : Option ℚ) (t : Transcription) : Transcription :=
  { t with
    raw_text := mergeField transcript_text t.raw_text
    medical_notes := mergeField medical_notes t.medical_notes
    status := (status.getD t.status)
    confidence_score := mergeField confidence_score t.confidence_score
    processed_at := some now
    updated_at := now }

/-- Store operation `DatabaseService.update_transcription`: if the id is absent the method
returns `None` and leaves the store untouched (it does not raise); otherwise
it merges the given fields into the row and returns the updated row. -/
def update_transcription (db : DB) (now : Nat) (id : Nat)
    (transcript_text : Option String) (medical_notes : Option NotesPayload)
    (status : Option TranscriptionStatus) (confidence_score : Option ℚ) :
    Option Transcription × DB :=
  match db.transcriptions.find? (fun t => t.id = id) with
  | none => (none, db)
  | some t =>
    let t1 := applyUpdate now transcript_text medical_notes status confidence_score t
    (some t1,
     { db with
       transcriptions :=
         db.transcriptions.map (fun u =>
           if u.id = id then
             applyUpdate now transcript_text medical_notes status confidence_score u
           else u) })

/-- Insertion, newest (largest `created_at`) first; the embedding of the SQL
`ORDER BY created_at DESC` used by the listing queries. -/
def insertDesc (t : Transcription) : List Transcription → List Transcription
  | [] => [t]
  | u :: us =>
    if u.created_at ≤ t.created_at then t :: u :: us else u :: insertDesc t us

/-- Sort a list of rows by `created_at` descending. -/
def sortByCreatedDesc : List Transcription → List Transcription
  | [] => []
  | t :: ts => insertDesc t (sortByCreatedDesc ts)

/-- Store operation `DatabaseService.get_patient_transcriptions`: the patient's rows ordered
by `created_at` descending. -/
def get_patient_transcriptions (db : DB) (pid : String) : List Transcription :=
  sortByCreatedDesc (db.transcriptions.filter (fun t => t.patient_id = pid))

/-- Build the rows inserted by `save_terminology_validations`, consuming fresh
ids sequentially. -/
def mkValidationRows (now tid : Nat) : List ValidationInput → Nat → List TermValidationRow
  | [], _ => []
  | v :: vs, n =>
    { id := n
      transcription_id := tid
      original_term := v.term
      validated_term := v.validated_term
      is_medical := v.is_medical
      confidence := v.confidence
      category := v.category
      suggested_correction := v.suggested_correction
      created_at := now } :: mkValidationRows now tid vs (n + 1)

/-- Store operation `DatabaseService.save_terminology_validations`: batch-insert one fresh row
per validation result; there is no lookup, guard, or replace-on-conflict. -/
def save_terminology_validations (db : DB) (now tid : Nat)
    (vs : List ValidationInput) : DB :=
  { db with
    validations := db.validations ++ mkValidationRows now tid vs db.nextId
    nextId := db.nextId + vs.length }

/-- Behavior of the external LLM service for one pipeline run: the response of
the summarizer agent call for a given prompt text, and the response of the
validator agent call for a given term. `none` models the call raising. -/
structure EngineBehavior where
  summarizerResp : String → Option String
  validatorResp : String → Option String

/-- Parser `MedicalSummarizer._parse_llm_response`: the source ignores the LLM
response and returns one hardcoded dict. -/
def fixedMedicalNotes : NotesPayload :=
  { symptoms := ["chest pain", "shortness of breath"]
    diagnoses := ["Possible angina", "Rule out myocardial infarction"]
    medications := [{ name := "Aspirin", dosage := "81mg", frequency := "daily", duration := "indefinite" }]
    recommendations := ["ECG", "Blood tests", "Cardiology consultation"]
    follow_up_required := true
    urgency_level := "high"
    summary := "Patient presents with chest pain and SOB. Requires urgent cardiac workup." }

/-- Parser `MedicalSummarizer._parse_llm_response` as a function of the response. -/
def parse_llm_response (_response : String) : NotesPayload := fixedMedicalNotes

/-- Summarizer call `MedicalSummarizer.generate_medical_notes`: run the agent on the
transcript (may raise → `none`), then parse the output. -/
def generate_medical_notes (env : EngineBehavior) (transcription : String) :
    Option NotesPayload :=
  (env.summarizerResp transcription).map parse_llm_response

/-- The literal confidence 0.95 (= 19/20) used by both the validator and the
pipeline's completed write, built by constructor so that it evaluates. -/
def conf95 : ℚ := ⟨19, 20, by norm_num, by norm_num⟩

theorem conf95_eq_div : conf95 = (95 : ℚ) / 100 := by
  rw [conf95, Rat.mk'_eq_divInt, Rat.divInt_eq_div]
  norm_num

/-- Validator call `TerminologyValidator._validate_single_term`: run the agent on the term
(may raise → `none`); the returned validation record carries hardcoded
fields except the term itself. -/
def validate_single_term (env : EngineBehavior) (term : String) :
    Option ValidationInput :=
  (env.validatorResp term).map (fun _ =>
    { term := term
      validated_term := none
      is_medical := true
      confidence := conf95
      category := some "condition"
      suggested_correction := none })

/-- Validator loop `TerminologyValidator.validate_terms`: validate each term in order; the
first raising call aborts the whole loop (nothing catches inside it). -/
def validate_terms (env : EngineBehavior) : List String → Option (List ValidationInput)
  | [] => some []
  | t :: ts =>
    match validate_single_term env t with
    | none => none
    | some v => (validate_terms env ts).map (fun vs => v :: vs)

/-- Split a character list at every space, keeping empty segments, like
Python's `str.split(" ")`. The first argument accumulates the current word
reversed. -/
def splitSpacesAux (acc : List Char) : List Char → List String
  | [] => [String.mk acc.reverse]
  | c :: cs =>
    if c = ' ' then String.mk acc.reverse :: splitSpacesAux [] cs
    else splitSpacesAux (c :: acc) cs

/-- Modelled from the spec: `extract_medical_terms` is called by the request
boundary and the pipeline (`app/api/routes.py`) but is defined nowhere in the
sources; the spec only says terms are extracted from the raw transcript text
for terminology validation. Modelled as whitespace tokenisation of the text. -/
def extract_medical_terms (text : String) : List String :=
  splitSpacesAux [] text.toList

/-- The hardcoded simulated transcript of `process_audio_transcription`
(`app/api/routes.py` line 112). -/
def simulatedTranscript : String :=
  "Simulated transcription from uploaded audio file. Patient reports chest pain and shortness of breath."

/-- Index of the last occurrence of a character in a character list. -/
def lastIndexOf (l : List Char) (c : Char) : Option Nat :=
  match l.reverse.findIdx? (fun d => d = c) with
  | none => none
  | some i => some (l.length - 1 - i)

/-- The extension part of Python's `os.path.splitext`: the suffix starting at
the last dot, provided that dot lies after the last path separator and some
non-dot character of the basename precedes it (so dotfiles have no
extension). -/
def splitextExt (s : String) : String :=
  let l := s.toList
  let filenameStart : Nat :=
    match lastIndexOf l '/' with
    | none => 0
    | some i => i + 1
  match lastIndexOf l '.' with
  | none => ""
  | some d =>
    if filenameStart ≤ d ∧ ((l.take d).drop filenameStart).any (fun c => c ≠ '.') then
      String.mk (l.drop d)
    else ""

/-- Python's `str.lower()` applied character by character (the allowed
extensions are ASCII, so the per-character rule is all the endpoint uses). -/
def strLower (s : String) : String := String.mk (s.toList.map Char.toLower)

/-- The allowed upload extensions of `upload_audio_transcription`. -/
def allowedExtensions : List String := [".wav", ".mp3", ".m4a", ".webm"]

/-- An HTTP error response raised on a synchronous request path. -/
structure HTTPError where
  code : Nat
deriving DecidableEq, Repr

/-- Endpoint `upload_audio_transcription` (`app/api/routes.py` lines 11-54): validate
the extension (case-insensitively) before any effect; on failure raise 400
with the world untouched; on success write the temporary file under `/tmp`,
insert the `processing` record, and return it. The background dispatch of the
pipeline is the separate function `process_audio_transcription`. -/
def upload_audio_transcription (w : World) (now : Nat)
    (filename pid did : String) : Except HTTPError Transcription × World :=
  let ext := strLower (splitextExt filename)
  if ext ∈ allowedExtensions then
    let path := "/tmp/" ++ filename
    let files1 := if path ∈ w.files then w.files else path :: w.files
    let (t, db1) := create_transcription w.db now pid did path
    (Except.ok t, ⟨db1, files1⟩)
  else
    (Except.error ⟨400⟩, w)

/-- The reasons the pipeline body can raise. -/
inductive PyError where
  | summarizerError
  | validatorError
  | fileNotFound
deriving DecidableEq, Repr

/-- Python `os.remove`: delete the path from the filesystem if it exists (the
filesystem is a set of paths), raise otherwise. -/
def osRemove (files : List String) (path : String) : Option (List String) :=
  if path ∈ files then some (files.filter (fun q => q ≠ path)) else none

/-- The database writes of the pipeline's success path (`app/api/routes.py`
lines 127-138): write the completed record with transcript, notes and
confidence 0.95, then batch-append the validation rows when the validated
list is non-empty. -/
def successWrites (db : DB) (now id : Nat) (notes : NotesPayload)
    (validated : List ValidationInput) : DB :=
  if validated.isEmpty then
    (update_transcription db now id (some simulatedTranscript) (some notes)
      (some TranscriptionStatus.completed) (some conf95)).2
  else
    save_terminology_validations
      ((update_transcription db now id (some simulatedTranscript) (some notes)
        (some TranscriptionStatus.completed) (some conf95)).2)
      now id validated

/-- The `try` block of `process_audio_transcription` (`app/api/routes.py`
lines 106-152), returning the world after the writes that executed before
any exception, together with the exception if one was raised: simulate the
transcript, generate notes, validate terms, write the completed record,
append the validation rows when non-empty, then delete the temporary file.
The source ignores `update_transcription` returning `None` for a missing id
and keeps going. -/
def pipelineBody (env : EngineBehavior) (now : Nat) (w : World)
    (id : Nat) (path : String) : World × Option PyError :=
  match generate_medical_notes env simulatedTranscript with
  | none => (w, some PyError.summarizerError)
  | some notes =>
    match validate_terms env (extract_medical_terms simulatedTranscript) with
    | none => (w, some PyError.validatorError)
    | some validated =>
      match osRemove w.files path with
      | some files1 => (⟨successWrites w.db now id notes validated, files1⟩, none)
      | none =>
        (⟨successWrites w.db now id notes validated, w.files⟩,
         some PyError.fileNotFound)

/-- Background task `process_audio_transcription` (`app/api/routes.py` lines 104-164): run the
body; the surrounding `except` catches every exception and overwrites the
record's status with `failed`. The function is total: no exception escapes
the background task. -/
def process_audio_transcription (env : EngineBehavior) (now : Nat) (w : World)
    (id : Nat) (path : String) : World :=
  match pipelineBody env now w id path with
  | (w1, none) => w1
  | (w1, some _) =>
    { w1 with
      db := (update_transcription w1.db now id none none
              (some TranscriptionStatus.failed) none).2 }

/-! Concrete demonstration worlds used by the counterexamples and witnesses:
one upload of `visit.wav` into the empty world, followed by pipeline runs
under an all-successful engine, a re-run, and a run whose summarizer call
raises. -/

/-- An engine behavior where every external call succeeds. -/
def demoEnvOk : EngineBehavior := ⟨fun _ => some "ok", fun _ => some "ok"⟩

/-- An engine behavior where the summarizer (extraction) call raises and the
validator succeeds. -/
def demoEnvNoNotes : EngineBehavior := ⟨fun _ => none, fun _ => some "ok"⟩

/-- The world after uploading `visit.wav` into the empty world at time 0. -/
def demoWorld : World :=
  (upload_audio_transcription World.empty 0 "visit.wav" "p1" "d1").2

/-- One fully successful pipeline run on the uploaded transcription. -/
def demoRun1 : World :=
  process_audio_transcription demoEnvOk 1 demoWorld 0 "/tmp/visit.wav"

/-- A second pipeline run on the already-completed transcription (its
temporary file was removed by the first run). -/
def demoRun2 : World :=
  process_audio_transcription demoEnvOk 2 demoRun1 0 "/tmp/visit.wav"

/-- A pipeline run on the uploaded transcription whose extraction stage
raises. -/
def demoFailRun : World :=
  process_audio_transcription demoEnvNoNotes 1 demoWorld 0 "/tmp/visit.wav"

/-- A sample stored row awaiting processing, used for concrete update calls. -/
def sampleRecord : Transcription :=
  { id := 0
    patient_id := "p1"
    doctor_id := "d1"
    audio_file_path := some "/tmp/a.wav"
    raw_text := none
    medical_notes := none
    status := TranscriptionStatus.processing
    confidence_score := none
    processed_at := none
    created_at := 0
    updated_at := 0 }

/-- A store holding just `sampleRecord`. -/
def sampleDB : DB := ⟨[sampleRecord], [], 1⟩

/-! Helper lemmas about the store operations. -/

theorem applyUpdate_id (now : Nat) (a : Option String) (b : Option NotesPayload)
    (c : Option TranscriptionStatus) (d : Option ℚ) (t : Transcription) :
    (applyUpdate now a b c d t).id = t.id := rfl

theorem find?_map_update (l : List Transcription) (id : Nat)
    (f : Transcription → Transcription) (hf : ∀ u, (f u).id = u.id)
    {t : Transcription} (h : l.find? (fun u => u.id = id) = some t) :
    (l.map (fun u => if u.id = id then f u else u)).find? (fun u => u.id = id) =
      some (f t) := by
  induction l with
  | nil => simp at h
  | cons u us ih =>
    by_cases hu : u.id = id
    · rw [List.find?_cons_of_pos _ (by simpa using hu)] at h
      cases h
      simp only [List.map_cons, if_pos hu]
      exact List.find?_cons_of_pos _ (by simp [hf, hu])
    · rw [List.find?_cons_of_neg _ (by simpa using hu)] at h
      simp only [List.map_cons, if_neg hu]
      rw [List.find?_cons_of_neg _ (by simpa using hu)]
      exact ih h

theorem get_update_self (db : DB) (now id : Nat) (a : Option String)
    (b : Option NotesPayload) (c : Option TranscriptionStatus) (d : Option ℚ)
    {t : Transcription} (h : get_transcription db id = some t) :
    get_transcription (update_transcription db now id a b c d).2 id =
      some (applyUpdate now a b c d t) := by
  unfold get_transcription at h
  unfold get_transcription update_transcription
  rw [h]
  dsimp only
  exact find?_map_update db.transcriptions id (applyUpdate now a b c d) (fun u => rfl) h

theorem update_validations_eq (db : DB) (now id : Nat) (a : Option String)
    (b : Option NotesPayload) (c : Option TranscriptionStatus) (d : Option ℚ) :
    (update_transcription db now id a b c d).2.validations = db.validations := by
  unfold update_transcription
  cases db.transcriptions.find? (fun t => t.id = id) <;> rfl

theorem get_save_validations (db : DB) (now tid : Nat) (vs : List ValidationInput)
    (id : Nat) :
    get_transcription (save_terminology_validations db now tid vs) id =
      get_transcription db id := rfl

/-- C7: an upload whose filename extension (case-insensitively) is not one of
`.wav`, `.mp3`, `.m4a`, `.webm` is rejected with a client error (HTTP 400)
and the world is unchanged: no Transcription record is created and no
temporary file is written. -/
theorem upload_rejects_bad_extension (w : World) (now : Nat)
    (filename pid did : String)
    (h : strLower (splitextExt filename) ∉ allowedExtensions) :
    upload_audio_transcription w now filename pid did =
      (Except.error ⟨400⟩, w) := by
  unfold upload_audio_transcription
  rw [if_neg h]

theorem upload_rejects_bad_extension_witness :
    strLower (splitextExt "notes.txt") ∉ allowedExtensions ∧
    upload_audio_transcription World.empty 3 "notes.txt" "p1" "d1" =
      (Except.error ⟨400⟩, World.empty) :=
  ⟨by decide, upload_rejects_bad_extension World.empty 3 "notes.txt" "p1" "d1" (by decide)⟩

/-- C5 counterexample: updating only `confidence_score` (no status change, so
no transition to a terminal value) still overwrites `processed_at` with the
current time, instead of leaving it unchanged (`none`) as the claim states. -/
theorem update_nonterminal_sets_processed_at :
    ((update_transcription sampleDB 7 0 none none none (some ((1 : ℚ) / 2))).1.map
      (fun t => t.processed_at)) = some (some 7) ∧
    ((update_transcription sampleDB 7 0 none none none (some ((1 : ℚ) / 2))).1.map
      (fun t => t.processed_at)) ≠ some none := by
  constructor
  · rfl
  · intro hcontra
    rw [show ((update_transcription sampleDB 7 0 none none none (some ((1 : ℚ) / 2))).1.map
      (fun t => t.processed_at)) = some (some 7) from rfl] at hcontra
    simp at hcontra

/-- C5 (amended): every successful `update_transcription` on an existing id
refreshes `updated_at` and sets `processed_at` to the current time — it does
so on every update, not only when the status moves to a terminal value. -/
theorem update_always_sets_timestamps (db : DB) (now id : Nat)
    (a : Option String) (b : Option NotesPayload)
    (c : Option TranscriptionStatus) (d : Option ℚ) (t1 : Transcription)
    (h : (update_transcription db now id a b c d).1 = some t1) :
    t1.updated_at = now ∧ t1.processed_at = some now := by
  unfold update_transcription at h
  cases hf : db.transcriptions.find? (fun t => t.id = id) with
  | none => rw [hf] at h; simp at h
  | some t =>
    rw [hf] at h
    dsimp only at h
    cases h
    exact ⟨rfl, rfl⟩

theorem update_always_sets_timestamps_witness :
    (applyUpdate 7 none none none none sampleRecord).updated_at = 7 ∧
    (applyUpdate 7 none none none none sampleRecord).processed_at = some 7 :=
  update_always_sets_timestamps sampleDB 7 0 none none none none
    (applyUpdate 7 none none none none sampleRecord) rfl

/-! Ordering of the listing queries. -/

/-- Relation stating that `a` comes no later than `b` in a newest-first listing. -/
def createdDescOrder (a b : Transcription) : Prop :=
  b.created_at ≤ a.created_at

theorem perm_insertDesc (t : Transcription) (l : List Transcription) :
    List.Perm (insertDesc t l) (t :: l) := by
  induction l with
  | nil => simp [insertDesc]
  | cons u us ih =>
    unfold insertDesc
    by_cases h : u.created_at ≤ t.created_at
    · rw [if_pos h]
    · rw [if_neg h]
      exact (ih.cons u).trans (List.Perm.swap t u us)

theorem sorted_insertDesc (t : Transcription) (l : List Transcription)
    (h : l.Pairwise createdDescOrder) :
    (insertDesc t l).Pairwise createdDescOrder := by
  induction l with
  | nil => simp [insertDesc, createdDescOrder]
  | cons u us ih =>
    rw [List.pairwise_cons] at h
    obtain ⟨hu, hus⟩ := h
    unfold insertDesc
    by_cases hle : u.created_at ≤ t.created_at
    · rw [if_pos hle]
      refine List.Pairwise.cons ?_ (List.Pairwise.cons hu hus)
      intro x hx
      rcases List.mem_cons.mp hx with hx | hx
      · subst hx; exact hle
      · show x.created_at ≤ t.created_at
        exact le_trans (hu x hx) hle
    · rw [if_neg hle]
      refine List.Pairwise.cons ?_ (ih hus)
      intro x hx
      have hx2 : x ∈ t :: us := (perm_insertDesc t us).mem_iff.mp hx
      rcases List.mem_cons.mp hx2 with h1 | h1
      · rw [h1]
        show t.created_at ≤ u.created_at
        exact le_of_not_le hle
      · exact hu x h1

theorem sorted_sortByCreatedDesc (l : List Transcription) :
    (sortByCreatedDesc l).Pairwise createdDescOrder := by
  induction l with
  | nil => simp [sortByCreatedDesc]
  | cons t ts ih => exact sorted_insertDesc t _ ih

theorem perm_sortByCreatedDesc (l : List Transcription) :
    List.Perm (sortByCreatedDesc l) l := by
  induction l with
  | nil => rfl
  | cons t ts ih => exact (perm_insertDesc t _).trans (ih.cons t)

/-- C9: listing a patient's transcriptions returns exactly the rows whose
`patient_id` matches (as a permutation of the filtered table) sorted by
`created_at` in descending order (newest first). -/
theorem get_patient_transcriptions_sorted (db : DB) (pid : String) :
    (get_patient_transcriptions db pid).Pairwise createdDescOrder ∧
    List.Perm (get_patient_transcriptions db pid)
      (db.transcriptions.filter (fun t => t.patient_id = pid)) :=
  ⟨sorted_sortByCreatedDesc _, perm_sortByCreatedDesc _⟩

/-- C8: a valid upload immediately (before any pipeline stage runs) returns a
Transcription with status `processing`, `created_at` equal to (hence at most)
the current time, and a freshly generated id distinct from every existing
row's id, provided the fresh-id supply is ahead of the table. -/
theorem upload_valid_creates_processing (w : World) (now : Nat)
    (filename pid did : String)
    (hext : strLower (splitextExt filename) ∈ allowedExtensions)
    (hfresh : ∀ u ∈ w.db.transcriptions, u.id < w.db.nextId) :
    ((upload_audio_transcription w now filename pid did).1.toOption.map
      (fun t => (t.status, t.created_at,
        w.db.transcriptions.all (fun u => decide (u.id ≠ t.id))))) =
      some (TranscriptionStatus.processing, now, true) ∧
    ((upload_audio_transcription w now filename pid did).1.toOption.map
      (fun t => decide (t.created_at ≤ now))) = some true := by
  unfold upload_audio_transcription
  rw [if_pos hext]
  dsimp only [Except.toOption, Option.map, create_transcription]
  constructor
  · have hall : w.db.transcriptions.all (fun u => decide (u.id ≠ w.db.nextId)) = true := by
      rw [List.all_eq_true]
      intro u hu
      exact decide_eq_true (Nat.ne_of_lt (hfresh u hu))
    simp only [hall]
  · simp

theorem upload_valid_creates_processing_witness :
    (((upload_audio_transcription World.empty 5 "visit.wav" "p1" "d1").1.toOption.map
      (fun t => (t.status, t.created_at,
        World.empty.db.transcriptions.all (fun u => decide (u.id ≠ t.id))))) =
      some (TranscriptionStatus.processing, 5, true) ∧
    ((upload_audio_transcription World.empty 5 "visit.wav" "p1" "d1").1.toOption.map
      (fun t => decide (t.created_at ≤ 5))) = some true) :=
  upload_valid_creates_processing World.empty 5 "visit.wav" "p1" "d1"
    (by decide) (by intro u hu; simp [World.empty] at hu)

/-! Lemmas about the pipeline's effect on one record. -/

theorem get_successWrites (db : DB) (now id : Nat) (notes : NotesPayload)
    (validated : List ValidationInput) {t : Transcription}
    (hex : get_transcription db id = some t) :
    get_transcription (successWrites db now id notes validated) id =
      some (applyUpdate now (some simulatedTranscript) (some notes)
        (some TranscriptionStatus.completed) (some conf95) t) := by
  unfold successWrites
  by_cases he : validated.isEmpty
  · rw [if_pos he]
    exact get_update_self db now id _ _ _ _ hex
  · rw [if_neg he]
    rw [get_save_validations]
    exact get_update_self db now id _ _ _ _ hex

theorem mark_failed_status (db : DB) (now id : Nat) {t1 : Transcription}
    (h : get_transcription db id = some t1) :
    (get_transcription (update_transcription db now id none none
        (some TranscriptionStatus.failed) none).2 id).map (fun u => u.status) =
      some TranscriptionStatus.failed := by
  rw [get_update_self db now id none none (some TranscriptionStatus.failed) none h]
  rfl

/-- C2: the background pipeline catches every exception raised at any of its
stages: `process_audio_transcription` is a total function of the world (no
exception value escapes to a caller), and whenever its body raises (the
returned error is present) the stored record is overwritten with status
`failed`. -/
theorem pipeline_failure_marks_record_failed (env : EngineBehavior) (now : Nat)
    (w : World) (id : Nat) (path : String) (t : Transcription)
    (hex : get_transcription w.db id = some t)
    (herr : ((pipelineBody env now w id path).2).isSome = true) :
    (get_transcription (process_audio_transcription env now w id path).db id).map
      (fun u => u.status) = some TranscriptionStatus.failed := by
  unfold process_audio_transcription
  unfold pipelineBody at herr ⊢
  cases hg : generate_medical_notes env simulatedTranscript with
  | none =>
    dsimp only
    exact mark_failed_status w.db now id hex
  | some notes =>
    cases hv : validate_terms env (extract_medical_terms simulatedTranscript) with
    | none =>
      dsimp only
      exact mark_failed_status w.db now id hex
    | some validated =>
      cases hr : osRemove w.files path with
      | some files1 =>
        rw [hg, hv, hr] at herr
        simp at herr
      | none =>
        dsimp only
        exact mark_failed_status _ now id
          (get_successWrites w.db now id notes validated hex)

theorem pipeline_failure_marks_record_failed_witness :
    (get_transcription demoFailRun.db 0).map (fun u => u.status) =
      some TranscriptionStatus.failed :=
  pipeline_failure_marks_record_failed demoEnvNoNotes 1 demoWorld 0
    "/tmp/visit.wav" _ (by rfl) (by rfl)

/-- C10: on every successful pipeline run, and for every engine behavior, the
persisted `raw_text` is the one hardcoded simulated transcript and the
persisted `medical_notes` is the one hardcoded payload of the summarizer's
response parser — so any two successful runs persist identical content, and
the content is independent of the uploaded audio, whose bytes the pipeline
never reads. -/
theorem pipeline_success_persists_fixed_content (env : EngineBehavior)
    (now : Nat) (w : World) (id : Nat) (path : String) (w1 : World)
    (t : Transcription)
    (hex : get_transcription w.db id = some t)
    (hok : pipelineBody env now w id path = (w1, none)) :
    (get_transcription w1.db id).map (fun u => u.raw_text) =
      some (some simulatedTranscript) ∧
    (get_transcription w1.db id).map (fun u => u.medical_notes) =
      some (some fixedMedicalNotes) := by
  unfold pipelineBody at hok
  cases hg : generate_medical_notes env simulatedTranscript with
  | none => rw [hg] at hok; simp at hok
  | some notes =>
    rw [hg] at hok
    cases hv : validate_terms env (extract_medical_terms simulatedTranscript) with
    | none => rw [hv] at hok; simp at hok
    | some validated =>
      rw [hv] at hok
      cases hr : osRemove w.files path with
      | none => rw [hr] at hok; simp at hok
      | some files1 =>
        rw [hr] at hok
        have hw1 : w1.db = successWrites w.db now id notes validated := by
          cases hok
          rfl
        have hnotes : notes = fixedMedicalNotes := by
          unfold generate_medical_notes at hg
          cases hresp : env.summarizerResp simulatedTranscript with
          | none => rw [hresp] at hg; simp at hg
          | some r =>
            rw [hresp] at hg
            have h2 : some fixedMedicalNotes = some notes := hg
            cases h2
            rfl
        rw [hw1, get_successWrites w.db now id notes validated hex, hnotes]
        exact ⟨rfl, rfl⟩

theorem pipeline_success_persists_fixed_content_witness :
    (get_transcription (pipelineBody demoEnvOk 1 demoWorld 0 "/tmp/visit.wav").1.db 0).map
      (fun u => u.raw_text) = some (some simulatedTranscript) ∧
    (get_transcription (pipelineBody demoEnvOk 1 demoWorld 0 "/tmp/visit.wav").1.db 0).map
      (fun u => u.medical_notes) = some (some fixedMedicalNotes) :=
  pipeline_success_persists_fixed_content demoEnvOk 1 demoWorld 0 "/tmp/visit.wav"
    (pipelineBody demoEnvOk 1 demoWorld 0 "/tmp/visit.wav").1 _ (by rfl) (by decide)

/-- C3 counterexample: when the extraction stage raises after the (simulated)
transcription stage succeeded, the stored record ends `failed` with
`raw_text = none`: the transcript produced before the failure was never
persisted, so it is not retrievable, contrary to the claim that it is
preserved. -/
theorem extraction_failure_loses_raw_text :
    (get_transcription demoFailRun.db 0).map
      (fun u => (u.status, u.raw_text, u.medical_notes)) =
      some (TranscriptionStatus.failed, (none : Option String),
        (none : Option NotesPayload)) := by rfl

/-- C3 (amended): if the pipeline fails at the extraction stage (the
summarizer call raises) on a record that holds no content yet, the final
status is `failed`, `processed_at` is set, and `medical_notes` remains null —
but the raw transcript produced before the failure is not preserved:
`raw_text` remains null, because the pipeline persists the transcript only in
its final completed-status write. -/
theorem extraction_failure_final_state (env : EngineBehavior) (now : Nat)
    (w : World) (id : Nat) (path : String) (t : Transcription)
    (hex : get_transcription w.db id = some t)
    (hraw : t.raw_text = none) (hnotes : t.medical_notes = none)
    (hfail : env.summarizerResp simulatedTranscript = none) :
    (get_transcription (process_audio_transcription env now w id path).db id).map
      (fun u => (u.status, u.processed_at, u.raw_text, u.medical_notes)) =
      some (TranscriptionStatus.failed, some now, (none : Option String),
        (none : Option NotesPayload)) := by
  unfold process_audio_transcription pipelineBody
  have hg : generate_medical_notes env simulatedTranscript = none := by
    unfold generate_medical_notes
    rw [hfail]
    rfl
  rw [hg]
  dsimp only
  rw [get_update_self w.db now id none none (some TranscriptionStatus.failed) none hex]
  simp [applyUpdate, mergeField, hraw, hnotes]

theorem extraction_failure_final_state_witness :
    (get_transcription demoFailRun.db 0).map
      (fun u => (u.status, u.processed_at, u.raw_text, u.medical_notes)) =
      some (TranscriptionStatus.failed, some 1, (none : Option String),
        (none : Option NotesPayload)) :=
  extraction_failure_final_state demoEnvNoNotes 1 demoWorld 0 "/tmp/visit.wav"
    _ (by rfl) (by rfl) (by rfl) (by rfl)

/-! The content invariant of completed records, and the worlds reachable by
upload-pipeline writes. -/

/-- Every completed row of the store holds both the raw transcript and the
notes payload. -/
def dbCompletedHasContent (db : DB) : Prop :=
  ∀ t ∈ db.transcriptions, t.status = TranscriptionStatus.completed →
    t.raw_text.isSome = true ∧ t.medical_notes.isSome = true

/-- Every completed record of the world holds both payloads. -/
def completedHasContent (w : World) : Prop :=
  dbCompletedHasContent w.db

/-- One write-performing operation of the upload pipeline: an upload request
or a background pipeline run. -/
inductive UploadStep : World → World → Prop where
  | upload (w : World) (now : Nat) (filename pid did : String) :
      UploadStep w (upload_audio_transcription w now filename pid did).2
  | process (w : World) (env : EngineBehavior) (now : Nat) (id : Nat) (path : String) :
      UploadStep w (process_audio_transcription env now w id path)

/-- Worlds reachable from the empty store by upload-pipeline writes. -/
inductive Reachable : World → Prop where
  | init : Reachable World.empty
  | step {w w1 : World} : Reachable w → UploadStep w w1 → Reachable w1

theorem dbInv_update_completed (db : DB) (now id : Nat) (notes : NotesPayload)
    (h : dbCompletedHasContent db) :
    dbCompletedHasContent (update_transcription db now id
      (some simulatedTranscript) (some notes)
      (some TranscriptionStatus.completed) (some conf95)).2 := by
  unfold update_transcription
  cases hf : db.transcriptions.find? (fun t => t.id = id) with
  | none => exact h
  | some t0 =>
    dsimp only
    intro t ht hst
    rcases List.mem_map.mp ht with ⟨u, hu, hut⟩
    by_cases hid : u.id = id
    · rw [if_pos hid] at hut
      rw [← hut]
      exact ⟨rfl, rfl⟩
    · rw [if_neg hid] at hut
      subst hut
      exact h u hu hst

theorem dbInv_update_failed (db : DB) (now id : Nat)
    (h : dbCompletedHasContent db) :
    dbCompletedHasContent (update_transcription db now id none none
      (some TranscriptionStatus.failed) none).2 := by
  unfold update_transcription
  cases hf : db.transcriptions.find? (fun t => t.id = id) with
  | none => exact h
  | some t0 =>
    dsimp only
    intro t ht hst
    rcases List.mem_map.mp ht with ⟨u, hu, hut⟩
    by_cases hid : u.id = id
    · rw [if_pos hid] at hut
      rw [← hut] at hst
      simp [applyUpdate] at hst
    · rw [if_neg hid] at hut
      subst hut
      exact h u hu hst

theorem dbInv_successWrites (db : DB) (now id : Nat) (notes : NotesPayload)
    (validated : List ValidationInput) (h : dbCompletedHasContent db) :
    dbCompletedHasContent (successWrites db now id notes validated) := by
  unfold successWrites
  by_cases he : validated.isEmpty
  · rw [if_pos he]
    exact dbInv_update_completed db now id notes h
  · rw [if_neg he]
    exact dbInv_update_completed db now id notes h

theorem completedHasContent_upload (w : World) (now : Nat)
    (fn pid did : String) (h : completedHasContent w) :
    completedHasContent (upload_audio_transcription w now fn pid did).2 := by
  unfold upload_audio_transcription
  by_cases hext : strLower (splitextExt fn) ∈ allowedExtensions
  · simp only [if_pos hext]
    intro t ht hst
    rcases List.mem_append.mp ht with h1 | h1
    · exact h t h1 hst
    · rw [List.mem_singleton.mp h1] at hst
      exact absurd hst (by intro hc; cases hc)
  · simp only [if_neg hext]
    exact h

theorem completedHasContent_process (env : EngineBehavior) (now : Nat)
    (w : World) (id : Nat) (path : String) (h : completedHasContent w) :
    completedHasContent (process_audio_transcription env now w id path) := by
  unfold process_audio_transcription pipelineBody
  cases generate_medical_notes env simulatedTranscript with
  | none =>
    dsimp only
    exact dbInv_update_failed w.db now id h
  | some notes =>
    cases validate_terms env (extract_medical_terms simulatedTranscript) with
    | none =>
      dsimp only
      exact dbInv_update_failed w.db now id h
    | some validated =>
      have hs : dbCompletedHasContent (successWrites w.db now id notes validated) :=
        dbInv_successWrites w.db now id notes validated h
      cases osRemove w.files path with
      | some files1 =>
        dsimp only
        exact hs
      | none =>
        dsimp only
        exact dbInv_update_failed _ now id hs

/-- C1 (amended): after every write performed by the upload pipeline, every
record with status `completed` has non-null `raw_text` and non-null
`medical_notes`. Only this forward direction of the claimed equivalence
holds: the converse fails, since a record can keep both payloads while its
status is overwritten to `failed` when a step after the completed-status
write (the temporary-file removal on a re-run) raises. -/
theorem reachable_completed_has_content (w : World) (h : Reachable w) :
    completedHasContent w := by
  induction h with
  | init =>
    intro t ht
    cases ht
  | step _ hstep ih =>
    cases hstep with
    | upload now fn pid did =>
      exact completedHasContent_upload _ now fn pid did ih
    | process env now id path =>
      exact completedHasContent_process env now _ id path ih

theorem reachable_completed_has_content_witness : completedHasContent demoRun1 :=
  reachable_completed_has_content demoRun1
    (Reachable.step
      (Reachable.step Reachable.init
        (UploadStep.upload World.empty 0 "visit.wav" "p1" "d1"))
      (UploadStep.process demoWorld demoEnvOk 1 0 "/tmp/visit.wav"))

/-- C1 counterexample: the claimed equivalence fails in the direction
"both payloads present → completed". In the concrete trace upload → run →
re-run, the re-run's completed-status write succeeds and then its
temporary-file removal raises (the file was deleted by the first run), so the
handler overwrites the status with `failed` while both payloads stay stored:
the record has non-null raw_text and medical_notes but status `failed`. -/
theorem completed_iff_content_fails :
    (get_transcription demoRun2.db 0).map
      (fun u => (u.status, u.raw_text.isSome, u.medical_notes.isSome)) =
      some (TranscriptionStatus.failed, true, true) := by rfl

/-! Validation-row accounting for the idempotence claim. -/

theorem mkValidationRows_length (now tid : Nat) (vs : List ValidationInput) :
    ∀ n, (mkValidationRows now tid vs n).length = vs.length := by
  induction vs with
  | nil => intro n; rfl
  | cons v vs ih =>
    intro n
    simp only [mkValidationRows, List.length_cons, ih]

theorem mkValidationRows_filter_self (now tid : Nat) (vs : List ValidationInput) :
    ∀ n, (mkValidationRows now tid vs n).filter (fun r => r.transcription_id = tid) =
      mkValidationRows now tid vs n := by
  induction vs with
  | nil => intro n; rfl
  | cons v vs ih =>
    intro n
    simp only [mkValidationRows, List.filter_cons]
    rw [if_pos (by simp), ih]

theorem filter_validations_successWrites (db : DB) (now id : Nat)
    (notes : NotesPayload) (validated : List ValidationInput)
    (hne : validated.isEmpty = false) :
    ((successWrites db now id notes validated).validations.filter
      (fun r => r.transcription_id = id)).length =
      (db.validations.filter (fun r => r.transcription_id = id)).length +
        validated.length := by
  unfold successWrites
  rw [if_neg (by simp [hne])]
  unfold save_terminology_validations
  dsimp only
  rw [update_validations_eq, List.filter_append, List.length_append,
    mkValidationRows_filter_self, mkValidationRows_length]

/-- C4 (amended): re-invocation of the pipeline is neither guarded nor
idempotent: every run whose engine stages succeed (with a non-empty validated
list) appends one full fresh batch of Terminology Validation rows for the
transcription id, so a second run on an already-terminal transcription
duplicates the rows. -/
theorem pipeline_appends_validation_batch (env : EngineBehavior) (now : Nat)
    (w : World) (id : Nat) (path : String) (notes : NotesPayload)
    (validated : List ValidationInput)
    (hg : generate_medical_notes env simulatedTranscript = some notes)
    (hv : validate_terms env (extract_medical_terms simulatedTranscript) = some validated)
    (hne : validated.isEmpty = false) :
    ((process_audio_transcription env now w id path).db.validations.filter
      (fun r => r.transcription_id = id)).length =
      (w.db.validations.filter (fun r => r.transcription_id = id)).length +
        validated.length := by
  unfold process_audio_transcription pipelineBody
  rw [hg, hv]
  cases osRemove w.files path with
  | some files1 =>
    dsimp only
    exact filter_validations_successWrites w.db now id notes validated hne
  | none =>
    dsimp only
    rw [update_validations_eq]
    exact filter_validations_successWrites w.db now id notes validated hne

/-- The concrete validated-terms batch produced by the all-successful engine
on the simulated transcript. -/
def demoValidated : List ValidationInput :=
  (validate_terms demoEnvOk (extract_medical_terms simulatedTranscript)).getD []

theorem pipeline_appends_validation_batch_witness :
    ((process_audio_transcription demoEnvOk 2 demoRun1 0 "/tmp/visit.wav").db.validations.filter
      (fun r => r.transcription_id = 0)).length =
      (demoRun1.db.validations.filter (fun r => r.transcription_id = 0)).length +
        demoValidated.length :=
  pipeline_appends_validation_batch demoEnvOk 2 demoRun1 0 "/tmp/visit.wav"
    fixedMedicalNotes demoValidated (by rfl) (by rfl) (by rfl)

/-- C4 counterexample: after the first successful run the completed
transcription has 14 validation rows with pairwise-distinct terms; running
the pipeline again for the same id (already in a terminal state) appends 14
more, leaving 28 rows in which every term appears twice — duplicate
Terminology Validation rows for the id. -/
theorem rerun_duplicates_validation_rows :
    (get_transcription demoRun1.db 0).map (fun u => u.status) =
      some TranscriptionStatus.completed ∧
    (demoRun1.db.validations.filter (fun r => r.transcription_id = 0)).length = 14 ∧
    (demoRun2.db.validations.filter (fun r => r.transcription_id = 0)).length = 28 ∧
    ((demoRun1.db.validations.filter (fun r => r.transcription_id = 0)).map
      (fun r => r.original_term)).Nodup ∧
    ¬ ((demoRun2.db.validations.filter (fun r => r.transcription_id = 0)).map
      (fun r => r.original_term)).Nodup :=
  ⟨rfl, rfl, rfl, by decide, by decide⟩

/-- C6 counterexample: when a stage raises (here the extraction call), the
pipeline reaches the terminal state `failed` but the temporary audio file is
still present — the cleanup is not on the exception path. -/
theorem temp_file_left_behind_on_failure :
    (get_transcription demoFailRun.db 0).map (fun u => u.status) =
      some TranscriptionStatus.failed ∧
    "/tmp/visit.wav" ∈ demoFailRun.files :=
  ⟨rfl, by decide⟩

/-- C6 (amended): the temporary audio file is removed only on the fully
successful exit path; whenever any stage raises, the exception handler
performs no cleanup and the filesystem is exactly as before the run. -/
theorem temp_file_removed_iff_success (env : EngineBehavior) (now : Nat)
    (w : World) (id : Nat) (path : String) :
    ((pipelineBody env now w id path).2 = none →
      path ∉ (process_audio_transcription env now w id path).files) ∧
    ((pipelineBody env now w id path).2.isSome = true →
      (process_audio_transcription env now w id path).files = w.files) := by
  unfold process_audio_transcription pipelineBody
  cases generate_medical_notes env simulatedTranscript with
  | none =>
    refine ⟨fun h => ?_, fun _ => rfl⟩
    simp at h
  | some notes =>
    cases validate_terms env (extract_medical_terms simulatedTranscript) with
    | none =>
      refine ⟨fun h => ?_, fun _ => rfl⟩
      simp at h
    | some validated =>
      cases hr : osRemove w.files path with
      | some files1 =>
        refine ⟨fun _ => ?_, fun h => by simp at h⟩
        unfold osRemove at hr
        by_cases hmem : path ∈ w.files
        · rw [if_pos hmem] at hr
          cases hr
          show path ∉ w.files.filter (fun q => q ≠ path)
          intro hc
          rcases List.mem_filter.mp hc with ⟨_, hq⟩
          simp at hq
        · rw [if_neg hmem] at hr
          cases hr
      | none =>
        refine ⟨fun h => by simp at h, fun _ => rfl⟩

theorem temp_file_removed_iff_success_witness :
    "/tmp/visit.wav" ∉
      (process_audio_transcription demoEnvOk 1 demoWorld 0 "/tmp/visit.wav").files ∧
    (process_audio_transcription demoEnvNoNotes 1 demoWorld 0 "/tmp/visit.wav").files =
      demoWorld.files :=
  ⟨(temp_file_removed_iff_success demoEnvOk 1 demoWorld 0 "/tmp/visit.wav").1 (by rfl),
   (temp_file_removed_iff_success demoEnvNoNotes 1 demoWorld 0 "/tmp/visit.wav").2 (by rfl)⟩

end MedAgent
